import Mathlib

/-!
# Verification of the aistore intra-cluster streaming transport (send side)

Shallow embedding of `transport` (the `Stream` object, its completion
machinery, end-of-object accounting, idle ticking and the LZ4 read adapter)
translated from the Go source, together with proofs of the specification's
claims about it.

Conventions of the embedding:
* Go channels are modelled as the list of buffered items; a `for x := range ch`
  loop over a closed channel becomes recursion over that list.
* Go pointers that serve only as identities (readers, callbacks) are modelled
  as `Nat` identifiers wrapped in `Option` for nilability.
* Side effects (callback invocation, `Close`, `FreeSend`) are reified as an
  `Event` list so that "exactly once" is a statement about counting.
* `int64` values are modelled as `Int`; no arithmetic here approaches overflow.
-/

namespace Transport

/-- Modelled from the spec: the reserved sentinel size values (`lastMarker`,
`tickMarker`, `SizeUnknown`) are declared in a transport file that is not under
`src/`; the spec says they are distinct reserved negative/sentinel values that
must not collide with real object sizes. Go's `math.MinInt64` territory. -/
def lastMarker : Int := -(2 ^ 63)

/-- Modelled from the spec: distinct idle-heartbeat sentinel. -/
def tickMarker : Int := -(2 ^ 63) + 1

/-- Modelled from the spec: `Size == SizeUnknown` means unsized (PDU framing). -/
def SizeUnknown : Int := -1

/-- Modelled from the spec: the in-send enum (`inEOB`, `inHdr`, `inPDU`,
`inData`) is declared in a transport file not under `src/`; the spec lists the
states with `inEOB` meaning "between objects" and the source's `inSend()`
(`ins >= inHdr || ins < inEOB`) shows `inEOB` below `inHdr`. -/
def inEOB : Int := 0

/-- Modelled from the spec: header-serialization state. -/
def inHdr : Int := 1

/-- Modelled from the spec: chunked-payload state. -/
def inPDU : Int := 2

/-- Modelled from the spec: payload-streaming state. -/
def inData : Int := 3

/-- Errors that flow through the transport; `io.EOF` is distinguished because
the source compares against it. -/
inductive GoError where
  | EOF
  | shortRead (off size : Int)
  | closedPriorToStopping
  | offsetMismatch (off : Int)
  | other (tag : Nat)
deriving DecidableEq, Repr

structure ObjectAttrs where
  Size : Int
deriving DecidableEq, Repr

structure ObjHdr where
  ObjAttrs : ObjectAttrs
deriving DecidableEq, Repr

/-- One unit of transmission. `Reader`, `Callback`, `CmplPtr` are Go pointers;
only their identity (and nilability) matters to the claims, so they are `Nat`
ids. `prc` holds the current value of the shared atomic refcount. -/
structure Obj where
  Hdr : ObjHdr
  Reader : Option Nat := none
  Callback : Option Nat := none
  CmplPtr : Nat := 0
  prc : Option Int := none
deriving DecidableEq, Repr

def ObjHdr.IsLast (hdr : ObjHdr) : Bool := hdr.ObjAttrs.Size == lastMarker

def ObjHdr.IsUnsized (hdr : ObjHdr) : Bool := hdr.ObjAttrs.Size == SizeUnknown

def Obj.IsLast (obj : Obj) : Bool := obj.Hdr.IsLast

def Obj.IsIdleTick (obj : Obj) : Bool := obj.Hdr.ObjAttrs.Size == tickMarker

def Obj.IsHeaderOnly (obj : Obj) : Bool := obj.Hdr.ObjAttrs.Size == 0 || obj.Hdr.IsLast

def Obj.IsUnsized (obj : Obj) : Bool := obj.Hdr.IsUnsized

/-- A send completion, as posted to SCQ (`cmplCh`). -/
structure cmpl where
  obj : Obj
  err : Option GoError
deriving DecidableEq, Repr

/-- The observable side effects of completion handling, reified. -/
inductive Event where
  | objCallback (cb : Nat) (hdr : ObjHdr) (reader : Option Nat) (cmplPtr : Nat)
      (err : Option GoError)
  | streamCallback (cb : Nat) (hdr : ObjHdr) (reader : Option Nat) (cmplPtr : Nat)
      (err : Option GoError)
  | close (reader : Nat)
  | freeSend
deriving DecidableEq, Repr

def Event.isCallback : Event → Bool
  | .objCallback .. => true
  | .streamCallback .. => true
  | _ => false

def Event.isStreamCallback : Event → Bool
  | .streamCallback .. => true
  | _ => false

def Event.isClose : Event → Bool
  | .close _ => true
  | _ => false

/-- The error argument carried by a callback event, when the event is one. -/
def Event.errOf : Event → Option (Option GoError)
  | .objCallback _ _ _ _ e => some e
  | .streamCallback _ _ _ _ e => some e
  | _ => none

/-- `Stream.doCmpl`: refcount-guarded sent-callback plus unconditional reader
close. `scb` is the stream-level callback `s.callback`; `rc` is `0` when `prc`
is nil, else the value `prc.Dec()` returns. -/
def doCmpl (scb : Option Nat) (obj : Obj) (err : Option GoError) : List Event :=
  let rc : Int :=
    match obj.prc with
    | none => 0
    | some v => v - 1
  let cbEvents : List Event :=
    if rc = 0 then
      match obj.Callback with
      | some cb => [Event.objCallback cb obj.Hdr obj.Reader obj.CmplPtr err]
      | none =>
        match scb with
        | some cb => [Event.streamCallback cb obj.Hdr obj.Reader obj.CmplPtr err]
        | none => []
    else []
  let closeEvents : List Event :=
    match obj.Reader with
    | some r => [Event.close r]
    | none => []
  cbEvents ++ closeEvents ++ [Event.freeSend]

/-- The atomic decrement applied to the shared `prc` by one `doCmpl`. -/
def decPrc (obj : Obj) : Obj := { obj with prc := obj.prc.map (· - 1) }

/-- Threading the shared `prc` through successive completions of the same
multi-reference `Obj` (one per stream it was sent on), with the i-th
completion carrying `errs[i]`. -/
def doCmplThread (scb : Option Nat) (obj : Obj) : List (Option GoError) → List Event
  | [] => []
  | e :: rest => doCmpl scb obj e ++ doCmplThread scb (decPrc obj) rest

/-- The completions `Stream.cmplLoop` actually handles before its `break`:
everything up to (excluding) the first last-marker, or the whole list when the
channel closes first. -/
def cmplLoopProcessed : List cmpl → List cmpl
  | [] => []
  | c :: rest => if c.obj.IsLast then [] else c :: cmplLoopProcessed rest

/-- `Stream.cmplLoop`: drain SCQ, `doCmpl` each completion, stop at the first
last-marker or at channel close. -/
def cmplLoopRun (scb : Option Nat) : List cmpl → List Event
  | [] => []
  | c :: rest =>
    if c.obj.IsLast then [] else doCmpl scb c.obj c.err ++ cmplLoopRun scb rest

/-- The completions the SCQ half of `Stream.abortPending` hands to `doCmpl`:
its `for ... range` skips last-markers but keeps going. -/
def abortPendingCmplProcessed : List cmpl → List cmpl
  | [] => []
  | c :: rest =>
    if c.obj.IsLast then abortPendingCmplProcessed rest
    else c :: abortPendingCmplProcessed rest

/-- `Stream.abortPending`: drain the (closed) SQ completing every object with
`err`, then, when `completions` is set, drain the (closed) SCQ skipping
last-markers. -/
def abortPendingRun (scb : Option Nat) (err : Option GoError) (workItems : List Obj)
    (cmplItems : List cmpl) (completions : Bool) : List Event :=
  workItems.flatMap (fun o => doCmpl scb o err) ++
    (if completions then
      (abortPendingCmplProcessed cmplItems).flatMap (fun c => doCmpl scb c.obj c.err)
    else [])

/-- `Stream.drain` (gc path): non-blocking drain of whatever is buffered in SQ,
completing each object with the terminal error. -/
def drainRun (scb : Option Nat) (termErr : Option GoError) (workItems : List Obj) :
    List Event :=
  workItems.flatMap (fun o => doCmpl scb o termErr)

/-- The synthetic last-marker `Obj` that `Stream.terminate` posts to SCQ. -/
def lastMarkerObj : Obj := { Hdr := { ObjAttrs := { Size := lastMarker } } }

lemma doCmpl_filter_close (scb : Option Nat) (obj : Obj) (err : Option GoError) :
    (doCmpl scb obj err).filter Event.isClose =
      match obj.Reader with
      | some r => [Event.close r]
      | none => [] := by
  unfold doCmpl
  rcases obj.prc with _ | v <;> rcases obj.Callback with _ | cb <;>
    rcases scb with _ | s <;> rcases obj.Reader with _ | r <;>
    simp [Event.isClose, List.filter_append]

lemma doCmpl_filter_callback (scb : Option Nat) (obj : Obj) (err : Option GoError)
    (hprc : obj.prc = none ∨ obj.prc = some 1) :
    (doCmpl scb obj err).filter Event.isCallback =
      match obj.Callback with
      | some cb => [Event.objCallback cb obj.Hdr obj.Reader obj.CmplPtr err]
      | none =>
        match scb with
        | some cb => [Event.streamCallback cb obj.Hdr obj.Reader obj.CmplPtr err]
        | none => [] := by
  unfold doCmpl
  have hrc : (match obj.prc with | none => (0 : Int) | some v => v - 1) = 0 := by
    rcases hprc with h | h <;> simp [h]
  rw [hrc]
  rcases obj.Callback with _ | cb <;> rcases scb with _ | s <;>
    rcases obj.Reader with _ | r <;>
    simp [Event.isCallback, List.filter_append, Event.isClose]

lemma doCmpl_no_callback_of_rc_pos (scb : Option Nat) (obj : Obj)
    (err : Option GoError) (v : Int) (hv : obj.prc = some v) (hpos : v ≠ 1) :
    (doCmpl scb obj err).filter Event.isCallback = [] := by
  unfold doCmpl
  have hrc : (match obj.prc with | none => (0 : Int) | some w => w - 1) = v - 1 := by
    simp [hv]
  rw [hrc]
  have : ¬(v - 1 = 0) := by omega
  rcases obj.Reader with _ | r <;>
    simp [this, Event.isCallback, List.filter_append]

lemma doCmplThread_callback_once (scb : Option Nat) :
    ∀ (errs : List (Option GoError)) (obj : Obj),
      obj.prc = some (errs.length : Int) → 1 ≤ errs.length →
      ((doCmplThread scb obj errs).filter Event.isCallback).length =
        (if obj.Callback.isSome || scb.isSome then 1 else 0) := by
  intro errs
  induction errs with
  | nil => intro obj _ h; simp at h
  | cons e rest ih =>
    intro obj hprc _
    unfold doCmplThread
    rw [List.filter_append, List.length_append]
    by_cases hrest : rest = []
    · subst hrest
      have h1 : obj.prc = some 1 := by simpa using hprc
      rw [doCmpl_filter_callback scb obj e (Or.inr h1)]
      simp only [doCmplThread, List.filter_nil, List.length_nil]
      rcases hobj : obj.Callback with _ | cb <;> rcases hscb : scb with _ | s <;>
        simp [hobj, hscb]
    · have hlen : 1 ≤ rest.length := by
        cases rest with
        | nil => exact absurd rfl hrest
        | cons _ _ => simp
      have hv : obj.prc = some ((rest.length : Int) + 1) := by
        simpa [Nat.cast_add] using hprc
      have hne : ((rest.length : Int) + 1) ≠ 1 := by
        have : (1 : Int) ≤ (rest.length : Int) := by exact_mod_cast hlen
        omega
      rw [doCmpl_no_callback_of_rc_pos scb obj e _ hv hne]
      have hdec : (decPrc obj).prc = some ((rest.length : Int)) := by
        simp [decPrc, hv]
      have hcb : (decPrc obj).Callback = obj.Callback := rfl
      have := ih (decPrc obj) hdec hlen
      rw [hcb] at this
      simpa using this

lemma cmplLoopRun_eq_bind (scb : Option Nat) :
    ∀ cs : List cmpl,
      cmplLoopRun scb cs = (cmplLoopProcessed cs).flatMap (fun c => doCmpl scb c.obj c.err) := by
  intro cs
  induction cs with
  | nil => rfl
  | cons c rest ih =>
    unfold cmplLoopRun cmplLoopProcessed
    by_cases h : c.obj.IsLast <;> simp [h, ih]

lemma cmplLoopProcessed_eq_takeWhile :
    ∀ cs : List cmpl, cmplLoopProcessed cs = cs.takeWhile (fun c => !c.obj.IsLast) := by
  intro cs
  induction cs with
  | nil => rfl
  | cons c rest ih =>
    unfold cmplLoopProcessed
    by_cases h : c.obj.IsLast <;> simp [List.takeWhile, h, ih]

lemma cmplLoopProcessed_not_last :
    ∀ cs : List cmpl, ∀ c ∈ cmplLoopProcessed cs, c.obj.IsLast = false := by
  intro cs
  induction cs with
  | nil => intro c hc; simp [cmplLoopProcessed] at hc
  | cons d rest ih =>
    intro c hc
    unfold cmplLoopProcessed at hc
    by_cases h : d.obj.IsLast
    · simp [h] at hc
    · rw [if_neg h] at hc
      rcases List.mem_cons.mp hc with hcd | hc2
      · rw [hcd]; simpa using h
      · exact ih c hc2

lemma abortPendingCmplProcessed_not_last :
    ∀ cs : List cmpl, ∀ c ∈ abortPendingCmplProcessed cs, c.obj.IsLast = false := by
  intro cs
  induction cs with
  | nil => intro c hc; simp [abortPendingCmplProcessed] at hc
  | cons d rest ih =>
    intro c hc
    unfold abortPendingCmplProcessed at hc
    by_cases h : d.obj.IsLast
    · rw [if_pos h] at hc
      exact ih c hc
    · rw [if_neg h] at hc
      rcases List.mem_cons.mp hc with hcd | hc2
      · rw [hcd]; simpa using h
      · exact ih c hc2

/-- Event equality test for a `close` of reader `r`. -/
def isCloseOf (r : Nat) (ev : Event) : Bool := decide (ev = Event.close r)

lemma doCmpl_shape (scb : Option Nat) (obj : Obj) (err : Option GoError) :
    ∃ cbs : List Event,
      doCmpl scb obj err =
        cbs ++ (match obj.Reader with | some r => [Event.close r] | none => []) ++
          [Event.freeSend] ∧
      ∀ e ∈ cbs, e.isClose = false := by
  simp only [doCmpl]
  refine ⟨_, rfl, ?_⟩
  split
  · rcases obj.Callback with _ | cb
    · rcases scb with _ | s
      · simp
      · intro e he
        simp at he
        subst he
        rfl
    · intro e he
      simp at he
      subst he
      rfl
  · simp

lemma doCmpl_closeOf_count (scb : Option Nat) (obj : Obj) (err : Option GoError)
    (r : Nat) :
    ((doCmpl scb obj err).filter (isCloseOf r)).length =
      (if obj.Reader = some r then 1 else 0) := by
  obtain ⟨cbs, heq, hcbs⟩ := doCmpl_shape scb obj err
  have hnil : cbs.filter (isCloseOf r) = [] := by
    rw [List.filter_eq_nil_iff]
    intro e he
    have := hcbs e he
    intro hc
    rw [isCloseOf, decide_eq_true_iff] at hc
    subst hc
    simp [Event.isClose] at this
  rw [heq, List.filter_append, List.filter_append, hnil]
  rcases hrd : obj.Reader with _ | rr
  · simp [isCloseOf]
  · by_cases hrr : rr = r
    · subst hrr
      simp [isCloseOf]
    · simp [isCloseOf, hrr]

lemma flatMapObjs_closeOf_count (scb : Option Nat) (e0 : Option GoError) (r : Nat) :
    ∀ wi : List Obj,
      ((wi.flatMap (fun o => doCmpl scb o e0)).filter (isCloseOf r)).length =
        (wi.filter (fun o => decide (o.Reader = some r))).length := by
  intro wi
  induction wi with
  | nil => rfl
  | cons o rest ih =>
    rw [List.flatMap_cons, List.filter_append, List.length_append, ih,
      doCmpl_closeOf_count]
    by_cases h : o.Reader = some r <;> simp [h, Nat.add_comm]

lemma flatMapCmpls_closeOf_count (scb : Option Nat) (r : Nat) :
    ∀ ci : List cmpl,
      ((ci.flatMap (fun c => doCmpl scb c.obj c.err)).filter (isCloseOf r)).length =
        (ci.filter (fun c => decide (c.obj.Reader = some r))).length := by
  intro ci
  induction ci with
  | nil => rfl
  | cons c rest ih =>
    rw [List.flatMap_cons, List.filter_append, List.length_append, ih,
      doCmpl_closeOf_count]
    by_cases h : c.obj.Reader = some r <;> simp [h, Nat.add_comm]

lemma doCmpl_callback_err (scb : Option Nat) (obj : Obj) (err : Option GoError) :
    ∀ e ∈ doCmpl scb obj err, ∀ e', Event.errOf e = some e' → e' = err := by
  intro e he e' herr
  simp only [doCmpl, List.mem_append] at he
  rcases he with (hcb | hcl) | hf
  · split at hcb
    · rcases hc : obj.Callback with _ | cb
      · rw [hc] at hcb
        rcases hs : scb with _ | s
        · rw [hs] at hcb
          simp at hcb
        · rw [hs] at hcb
          simp at hcb
          subst hcb
          simp [Event.errOf] at herr
          exact herr.symm
      · rw [hc] at hcb
        simp at hcb
        subst hcb
        simp [Event.errOf] at herr
        exact herr.symm
    · simp at hcb
  · rcases hrd : obj.Reader with _ | r
    · rw [hrd] at hcl
      simp at hcl
    · rw [hrd] at hcl
      simp at hcl
      subst hcl
      simp [Event.errOf] at herr
  · simp at hf
    subst hf
    simp [Event.errOf] at herr

lemma cmplLoopProcessed_append_last :
    ∀ (pre : List cmpl) (lm : cmpl) (post : List cmpl),
      (∀ c ∈ pre, c.obj.IsLast = false) → lm.obj.IsLast = true →
      cmplLoopProcessed (pre ++ lm :: post) = pre := by
  intro pre
  induction pre with
  | nil =>
    intro lm post _ hlm
    simp [cmplLoopProcessed, hlm]
  | cons d rest ih =>
    intro lm post hpre hlm
    have hd : d.obj.IsLast = false := hpre d (List.mem_cons_self d rest)
    have hrest : ∀ c ∈ rest, c.obj.IsLast = false := fun c hc =>
      hpre c (List.mem_cons_of_mem d hc)
    simp only [List.cons_append, cmplLoopProcessed, hd]
    simp [ih lm post hrest hlm]

/-- C1: for every Obj handled by the completion machinery (`cmplLoop` draining
SCQ, `abortPending`, or the gc `drain`), `doCmpl` runs exactly once per
processed item; in `doCmpl` the sent-callback is invoked exactly once when
`prc` is nil or its atomic decrement reaches zero (and, threading a shared
`prc = k` through the k completions, exactly once over all of them), every
callback invocation carries the completion's error (nil or terminal), and the
Obj's Reader, when non-nil, is closed exactly once even when no callback is
set. -/
theorem C1_completion_exactly_once (scb : Option Nat) (obj : Obj)
    (err : Option GoError) :
    ((doCmpl scb obj err).filter Event.isClose).length =
      (if obj.Reader.isSome then 1 else 0) ∧
    ((obj.prc = none ∨ obj.prc = some 1) →
      ((doCmpl scb obj err).filter Event.isCallback).length =
        (if obj.Callback.isSome || scb.isSome then 1 else 0)) ∧
    (∀ e ∈ doCmpl scb obj err, ∀ e', Event.errOf e = some e' → e' = err) ∧
    (∀ errs : List (Option GoError), obj.prc = some (errs.length : Int) →
      1 ≤ errs.length →
      ((doCmplThread scb obj errs).filter Event.isCallback).length =
        (if obj.Callback.isSome || scb.isSome then 1 else 0)) ∧
    (∀ cs : List cmpl, cmplLoopRun scb cs =
      (cmplLoopProcessed cs).flatMap (fun c => doCmpl scb c.obj c.err)) ∧
    (∀ (r : Nat) (wi : List Obj) (ci : List cmpl) (e0 : Option GoError),
      ((abortPendingRun scb e0 wi ci true).filter (isCloseOf r)).length =
        (wi.filter (fun o => decide (o.Reader = some r))).length +
          ((abortPendingCmplProcessed ci).filter
            (fun c => decide (c.obj.Reader = some r))).length) ∧
    (∀ (r : Nat) (wi : List Obj) (e0 : Option GoError),
      ((drainRun scb e0 wi).filter (isCloseOf r)).length =
        (wi.filter (fun o => decide (o.Reader = some r))).length) := by
  refine ⟨?_, ?_, ?_, ?_, cmplLoopRun_eq_bind scb, ?_, ?_⟩
  · rw [doCmpl_filter_close]
    rcases obj.Reader with _ | r <;> simp
  · intro hprc
    rw [doCmpl_filter_callback scb obj err hprc]
    rcases obj.Callback with _ | cb <;> rcases scb with _ | s <;> simp
  · exact doCmpl_callback_err scb obj err
  · intro errs hlen h1
    exact doCmplThread_callback_once scb errs obj hlen h1
  · intro r wi ci e0
    unfold abortPendingRun
    rw [if_pos rfl, List.filter_append, List.length_append,
      flatMapObjs_closeOf_count, flatMapCmpls_closeOf_count]
  · intro r wi e0
    unfold drainRun
    exact flatMapObjs_closeOf_count scb e0 r wi

/-- The zero value of Go's `Obj` struct (what `sendoff{ins: inEOB}` puts in
`sendoff.obj`). -/
def objZero : Obj :=
  { Hdr := { ObjAttrs := { Size := 0 } }, Reader := none, Callback := none,
    CmplPtr := 0, prc := none }

/-- The `Stats` counters of a stream (atomics in the source). -/
structure Stats where
  Offset : Int := 0
  Size : Int := 0
  Num : Int := 0
  CompressedSize : Int := 0
deriving DecidableEq, Repr

/-- The `sendoff` struct: object being transmitted, byte offset, in-send enum. -/
structure Sendoff where
  obj : Obj
  off : Int
  ins : Int
deriving DecidableEq, Repr

/-- The send-side mutable state of a `Stream` that `eoObj`, `sendData` and
`errCmpl` touch: `sendoff`, the session counters, the shared stats and SCQ. -/
structure SendState where
  sendoff : Sendoff
  Sizecur : Int := 0
  Numcur : Int := 0
  stats : Stats := {}
  cmplCh : List cmpl := []
deriving DecidableEq, Repr

/-- `Stream.inSend`: `s.sendoff.ins >= inHdr || s.sendoff.ins < inEOB`. -/
def inSendB (ins : Int) : Bool := decide (ins ≥ inHdr) || decide (ins < inEOB)

/-- `Stream.eoObj`: end-of-object accounting. Adds `sendoff.off` to `Sizecur`
and `stats.Offset`; when no error so far, validates `sendoff.off == objSize`
(with `objSize` adopted from `sendoff.off` for unsized objects) and on success
adds the size to `stats.Size` and bumps `Numcur`/`stats.Num`; finally posts
`cmpl{sendoff.obj, err}` to SCQ and resets `sendoff` to `{ins: inEOB}`. -/
def eoObj (s : SendState) (errIn : Option GoError) : SendState :=
  let obj := s.sendoff.obj
  let objSize := if obj.IsUnsized then s.sendoff.off else obj.Hdr.ObjAttrs.Size
  let s1 : SendState :=
    { s with
      Sizecur := s.Sizecur + s.sendoff.off
      stats := { s.stats with Offset := s.stats.Offset + s.sendoff.off } }
  let step : SendState × Option GoError :=
    match errIn with
    | some e => (s1, some e)
    | none =>
      if s.sendoff.off = objSize then
        ({ s1 with
            stats :=
              { s1.stats with
                Size := s1.stats.Size + objSize
                Num := s1.stats.Num + 1 }
            Numcur := s1.Numcur + 1 }, none)
      else (s1, some (GoError.offsetMismatch s.sendoff.off))
  { step.1 with
    cmplCh := step.1.cmplCh ++ [⟨s.sendoff.obj, step.2⟩]
    sendoff := { obj := objZero, off := 0, ins := inEOB } }

/-- The completion error `eoObj` posts, as a function of its inputs: the
incoming error when there is one, else the size-validation outcome. -/
def eoErr (s : SendState) (errIn : Option GoError) : Option GoError :=
  match errIn with
  | some e => some e
  | none =>
    let objSize :=
      if s.sendoff.obj.IsUnsized then s.sendoff.off else s.sendoff.obj.Hdr.ObjAttrs.Size
    if s.sendoff.off = objSize then none
    else some (GoError.offsetMismatch s.sendoff.off)

/-- Did this `(obj, final offset, error)` transmission complete successfully
(no error and size validation passed)? -/
def stepOk (st : Obj × Int × Option GoError) : Bool :=
  st.2.2.isNone && (st.1.IsUnsized || decide (st.2.1 = st.1.Hdr.ObjAttrs.Size))

/-- The payload contribution a step makes to `stats.Size`: its final offset if
successful (for sized successes the offset equals the declared size; for
unsized ones the offset is adopted as the size), else nothing. -/
def stepSize (st : Obj × Int × Option GoError) : Int :=
  if stepOk st then st.2.1 else 0

/-- Running `eoObj` over a sequence of finished transmissions: each step
installs the transmitted object and its final offset into `sendoff` and
invokes `eoObj` with the transmission's error. -/
def runEoObj (s : SendState) : List (Obj × Int × Option GoError) → SendState
  | [] => s
  | (obj, off, err) :: rest =>
    runEoObj (eoObj { s with sendoff := { obj := obj, off := off, ins := inData } } err) rest

/-- One reader `Read(b)` outcome inside `sendData`: bytes read and error. -/
structure ReadResult where
  n : Int
  err : Option GoError
deriving DecidableEq, Repr

/-- `Stream.sendData`: advance `sendoff.off` by the bytes read; on `io.EOF`
with a short offset return the short-read error (no completion!), on `io.EOF`
at/after the declared size complete with nil, on another error complete with
it, and with no error complete once the offset reaches the size. Returns the
state, the bytes forwarded and the error `Read` reports upward. -/
def sendData (s : SendState) (r : ReadResult) : SendState × Int × Option GoError :=
  let objSize := s.sendoff.obj.Hdr.ObjAttrs.Size
  let s' : SendState := { s with sendoff := { s.sendoff with off := s.sendoff.off + r.n } }
  match r.err with
  | some e =>
    if e = GoError.EOF then
      if s'.sendoff.off < objSize then
        (s', r.n, some (GoError.shortRead s'.sendoff.off objSize))
      else (eoObj s' none, r.n, none)
    else (eoObj s' (some e), r.n, some e)
  | none =>
    if s'.sendoff.off ≥ objSize then (eoObj s' none, r.n, none)
    else (s', r.n, none)

/-- `Stream.errCmpl`: when a transmission is in flight, post its completion
with the given error. -/
def errCmpl (s : SendState) (err : Option GoError) : SendState :=
  if inSendB s.sendoff.ins then
    { s with cmplCh := s.cmplCh ++ [⟨s.sendoff.obj, err⟩] }
  else s

/-- Modelled from the spec: the send loop (`sendLoop`/`do()` in the stream
base, which is not under `src/`) observes the error that `Read` reports and
hands it to `errCmpl`, per the spec's "per-object Read errors propagate as the
completion error for the currently sending object". -/
def sendLoopOnReadError (s : SendState) (err : Option GoError) : SendState :=
  errCmpl s err

/-- A concrete object used to instantiate theorems: size 100, a reader, a
per-object callback, and a refcount of 1. -/
def sampleObj : Obj :=
  { Hdr := { ObjAttrs := { Size := 100 } }, Reader := some 3, Callback := some 5,
    CmplPtr := 9, prc := some 1 }

/-- The `term` state of a stream: one-shot terminated flag plus terminal
error, guarded by `term.mu` in the source. -/
structure TermState where
  terminated : Bool := false
  err : Option GoError := none
deriving DecidableEq, Repr

/-- The stream control state that `terminate` touches: termination flag,
`stopCh` (as a `stopped` Bool), SCQ, collector registration and LZ4
resources. -/
structure StreamCtl where
  term : TermState := {}
  stopped : Bool := false
  cmplCh : List cmpl := []
  removedFromGc : Bool := false
  compressedOn : Bool := false
  lz4Freed : Bool := false
deriving DecidableEq, Repr

/-- `Stream.Stop`: close `stopCh`. -/
def Stop (c : StreamCtl) : StreamCtl := { c with stopped := true }

/-- `Stream.terminate`: `cmn.Assert(!s.term.terminated)` (a hard panic in the
source, modelled as `Except.error`), then set `terminated`, `Stop()`, post the
last-marker completion carrying `term.err`, unregister from the collector and
free the LZ4 state when compressed. -/
def terminate (c : StreamCtl) : Except String StreamCtl :=
  if c.term.terminated then Except.error "assertion failed: !s.term.terminated"
  else
    let c1 : StreamCtl := { c with term := { c.term with terminated := true } }
    let c2 := Stop c1
    let c3 : StreamCtl := { c2 with cmplCh := c2.cmplCh ++ [⟨lastMarkerObj, c2.term.err⟩] }
    let c4 : StreamCtl := { c3 with removedFromGc := true }
    Except.ok (if c4.compressedOn then { c4 with lz4Freed := true } else c4)

lemma eoObj_size_delta (s : SendState) (err : Option GoError) :
    (eoObj s err).stats.Size =
      s.stats.Size + stepSize (s.sendoff.obj, s.sendoff.off, err) := by
  rcases err with _ | e
  · by_cases hu : s.sendoff.obj.IsUnsized
    · simp [eoObj, stepSize, stepOk, hu]
    · by_cases hoff : s.sendoff.off = s.sendoff.obj.Hdr.ObjAttrs.Size
      · simp [eoObj, stepSize, stepOk, hu, hoff]
      · simp [eoObj, stepSize, stepOk, hu, hoff]
  · simp [eoObj, stepSize, stepOk]

lemma eoObj_num_delta (s : SendState) (err : Option GoError) :
    (eoObj s err).stats.Num =
      s.stats.Num + (if stepOk (s.sendoff.obj, s.sendoff.off, err) then 1 else 0) ∧
    (eoObj s err).Numcur =
      s.Numcur + (if stepOk (s.sendoff.obj, s.sendoff.off, err) then 1 else 0) := by
  rcases err with _ | e
  · by_cases hu : s.sendoff.obj.IsUnsized
    · simp [eoObj, stepOk, hu]
    · by_cases hoff : s.sendoff.off = s.sendoff.obj.Hdr.ObjAttrs.Size
      · simp [eoObj, stepOk, hu, hoff]
      · simp [eoObj, stepOk, hu, hoff]
  · simp [eoObj, stepOk]

lemma eoObj_cmpl_post (s : SendState) (err : Option GoError) :
    (eoObj s err).cmplCh = s.cmplCh ++ [⟨s.sendoff.obj, eoErr s err⟩] := by
  rcases err with _ | e
  · by_cases hu : s.sendoff.obj.IsUnsized
    · simp [eoObj, eoErr, hu]
    · by_cases hoff : s.sendoff.off = s.sendoff.obj.Hdr.ObjAttrs.Size
      · simp [eoObj, eoErr, hu, hoff]
      · simp [eoObj, eoErr, hu, hoff]
  · simp [eoObj, eoErr]

lemma eoObj_offset_delta (s : SendState) (err : Option GoError) :
    (eoObj s err).Sizecur = s.Sizecur + s.sendoff.off ∧
    (eoObj s err).stats.Offset = s.stats.Offset + s.sendoff.off := by
  rcases err with _ | e
  · by_cases hu : s.sendoff.obj.IsUnsized
    · simp [eoObj, hu]
    · by_cases hoff : s.sendoff.off = s.sendoff.obj.Hdr.ObjAttrs.Size
      · simp [eoObj, hu, hoff]
      · simp [eoObj, hu, hoff]
  · simp [eoObj]

lemma eoObj_sendoff_reset (s : SendState) (err : Option GoError) :
    (eoObj s err).sendoff = { obj := objZero, off := 0, ins := inEOB } := by
  rcases err with _ | e
  · by_cases hu : s.sendoff.obj.IsUnsized
    · simp [eoObj, hu]
    · by_cases hoff : s.sendoff.off = s.sendoff.obj.Hdr.ObjAttrs.Size
      · simp [eoObj, hu, hoff]
      · simp [eoObj, hu, hoff]
  · simp [eoObj]

lemma runEoObj_size :
    ∀ (steps : List (Obj × Int × Option GoError)) (s0 : SendState),
      (runEoObj s0 steps).stats.Size = s0.stats.Size + (steps.map stepSize).sum := by
  intro steps
  induction steps with
  | nil => intro s0; simp [runEoObj]
  | cons st rest ih =>
    intro s0
    rcases st with ⟨obj, off, err⟩
    rw [runEoObj, ih, eoObj_size_delta]
    simp [stepSize, stepOk]
    ring

lemma runEoObj_num :
    ∀ (steps : List (Obj × Int × Option GoError)) (s0 : SendState),
      (runEoObj s0 steps).stats.Num =
        s0.stats.Num + ((steps.filter stepOk).length : Int) := by
  intro steps
  induction steps with
  | nil => intro s0; simp [runEoObj]
  | cons st rest ih =>
    intro s0
    rcases st with ⟨obj, off, err⟩
    rw [runEoObj, ih, (eoObj_num_delta _ _).1]
    by_cases h : stepOk (obj, off, err)
    · simp [h]
      omega
    · simp [h]

/-- C4: `eoObj` posts exactly one completion `cmpl{obj, err}` to SCQ and
resets `sendoff` to `{ins: inEOB}`; it unconditionally adds `sendoff.off` to
`Sizecur` and `stats.Offset`; it validates `sendoff.off == objSize` except for
unsized objects (whose final size is adopted from `sendoff.off`); `stats.Size`
grows by the object size and `stats.Num` increments exactly when the object
completed without error and passed validation; and over any run, `stats.Size`
equals the starting value plus the sum of payload sizes of the successfully
transmitted objects. -/
theorem C4_eoObj_accounting (s : SendState) (err : Option GoError)
    (s0 : SendState) (steps : List (Obj × Int × Option GoError)) :
    (eoObj s err).cmplCh = s.cmplCh ++ [⟨s.sendoff.obj, eoErr s err⟩] ∧
    (eoObj s err).sendoff = { obj := objZero, off := 0, ins := inEOB } ∧
    (eoObj s err).Sizecur = s.Sizecur + s.sendoff.off ∧
    (eoObj s err).stats.Offset = s.stats.Offset + s.sendoff.off ∧
    (eoObj s err).stats.Size =
      s.stats.Size + stepSize (s.sendoff.obj, s.sendoff.off, err) ∧
    (eoObj s err).stats.Num =
      s.stats.Num + (if stepOk (s.sendoff.obj, s.sendoff.off, err) then 1 else 0) ∧
    (eoObj s err).Numcur =
      s.Numcur + (if stepOk (s.sendoff.obj, s.sendoff.off, err) then 1 else 0) ∧
    (runEoObj s0 steps).stats.Size = s0.stats.Size + (steps.map stepSize).sum ∧
    (runEoObj s0 steps).stats.Num =
      s0.stats.Num + ((steps.filter stepOk).length : Int) := by
  exact ⟨eoObj_cmpl_post s err, eoObj_sendoff_reset s err,
    (eoObj_offset_delta s err).1, (eoObj_offset_delta s err).2,
    eoObj_size_delta s err, (eoObj_num_delta s err).1, (eoObj_num_delta s err).2,
    runEoObj_size steps s0, runEoObj_num steps s0⟩

/-- C2 counterexample: running `terminate` twice from a fresh stream fails the
`cmn.Assert(!s.term.terminated)` — the second call is not permitted, so
`terminate` is not idempotent as claimed. -/
theorem C2_terminate_not_idempotent :
    (terminate ({} : StreamCtl)).bind terminate =
      Except.error "assertion failed: !s.term.terminated" := by rfl

/-- C2 (amended): `terminate` is single-shot rather than idempotent: it
asserts `!term.terminated`, so a second call fails the assertion; the first
call (from a non-terminated stream) sets `terminated`, stops the stream, and
posts a last-marker completion carrying `term.err` while unregistering from
the collector. -/
theorem C2_terminate_single_shot (c : StreamCtl) :
    (c.term.terminated = false →
      terminate c = Except.ok
        { term := { terminated := true, err := c.term.err }
          stopped := true
          cmplCh := c.cmplCh ++ [⟨lastMarkerObj, c.term.err⟩]
          removedFromGc := true
          compressedOn := c.compressedOn
          lz4Freed := c.compressedOn || c.lz4Freed }) ∧
    (c.term.terminated = true →
      terminate c = Except.error "assertion failed: !s.term.terminated") := by
  constructor
  · intro h
    by_cases hc : c.compressedOn <;> simp [terminate, Stop, h, hc]
  · intro h
    simp [terminate, h]

/-- Witness for the amended C2: the first call from a fresh stream succeeds
and posts the marker completion. -/
theorem C2_terminate_single_shot_witness :
    terminate ({} : StreamCtl) = Except.ok
      { term := { terminated := true, err := none }
        stopped := true
        cmplCh := [⟨lastMarkerObj, none⟩]
        removedFromGc := true
        compressedOn := false
        lz4Freed := false } := by
  simpa using (C2_terminate_single_shot ({} : StreamCtl)).1 rfl

/-- C3: a reader `io.EOF` while `sendoff.off` is still short of the declared
size makes the transmission fail with the short-read error; `sendData` itself
posts no completion (the object stays in flight, `inSend` still true), and the
send loop's error delivery through `errCmpl` posts exactly the completion
`cmpl{obj, shortRead}` to SCQ, so the object's callback receives that error. -/
theorem C3_short_read_completion (s : SendState) (r : ReadResult)
    (hins : s.sendoff.ins = inData) (heof : r.err = some GoError.EOF)
    (hshort : s.sendoff.off + r.n < s.sendoff.obj.Hdr.ObjAttrs.Size) :
    (sendData s r).2.2 =
      some (GoError.shortRead (s.sendoff.off + r.n) s.sendoff.obj.Hdr.ObjAttrs.Size) ∧
    (sendData s r).1.cmplCh = s.cmplCh ∧
    (sendData s r).1.sendoff.obj = s.sendoff.obj ∧
    inSendB (sendData s r).1.sendoff.ins = true ∧
    (sendLoopOnReadError (sendData s r).1 (sendData s r).2.2).cmplCh =
      s.cmplCh ++
        [⟨s.sendoff.obj,
          some (GoError.shortRead (s.sendoff.off + r.n)
            s.sendoff.obj.Hdr.ObjAttrs.Size)⟩] := by
  have hdata : (sendData s r) =
      ({ s with sendoff := { s.sendoff with off := s.sendoff.off + r.n } }, r.n,
        some (GoError.shortRead (s.sendoff.off + r.n)
          s.sendoff.obj.Hdr.ObjAttrs.Size)) := by
    simp only [sendData, heof]
    rw [if_pos trivial, if_pos hshort]
  rw [hdata]
  refine ⟨rfl, rfl, rfl, ?_, ?_⟩
  · simp [inSendB, hins, inData, inHdr, inEOB]
  · simp [sendLoopOnReadError, errCmpl, inSendB, hins, inData, inHdr, inEOB]

/-- Witness for C3 at a concrete input: a 100-byte object whose reader hits
EOF after 10 bytes. -/
theorem C3_short_read_completion_witness :
    (sendLoopOnReadError
        (sendData { sendoff := { obj := sampleObj, off := 0, ins := inData } }
          { n := 10, err := some GoError.EOF }).1
        (sendData { sendoff := { obj := sampleObj, off := 0, ins := inData } }
          { n := 10, err := some GoError.EOF }).2.2).cmplCh =
      [⟨sampleObj, some (GoError.shortRead 10 100)⟩] := by
  have h :=
    (C3_short_read_completion
      { sendoff := { obj := sampleObj, off := 0, ins := inData } }
      { n := 10, err := some GoError.EOF } rfl rfl (by decide)).2.2.2.2
  simpa [sampleObj] using h

/-- Modelled from the spec: the `sessST` session activity states (`active`,
`inactive`) are declared in a transport file not under `src/`. -/
inductive SessState where
  | active
  | inactive
deriving DecidableEq, Repr

/-- The tick-marker `Obj` that `idleTick` pushes onto SQ. -/
def tickObj : Obj := { Hdr := { ObjAttrs := { Size := tickMarker } } }

/-- `Stream.idleTick`: when SQ is observed empty AND the `sessST` CAS
active→inactive succeeds, push a tick-marker Obj; otherwise change nothing
(a failed CAS leaves `sessST` untouched, and short-circuit evaluation skips
the CAS entirely when SQ is non-empty). -/
def idleTick (workCh : List Obj) (sessST : SessState) : List Obj × SessState :=
  if workCh.isEmpty && (sessST == SessState.active) then
    (workCh ++ [tickObj], SessState.inactive)
  else (workCh, sessST)

/-- Modelled from the spec: `deactivate()` (stream base, not under `src/`)
flips `sessST` to `inactive` and returns `0, nil` so the HTTP transport may
keep the connection open but idle. -/
def deactivate (_ : SessState) : Int × Option GoError × SessState :=
  (0, none, SessState.inactive)

/-- What the `repeat` select in `Stream.Read` observes once SQ runs dry:
the channel was closed, `stopCh` fired, or neither (Read blocks). -/
inductive ChanEnd where
  | closed
  | stopped
  | blocked
deriving DecidableEq, Repr

/-- How the between-objects part of `Stream.Read` resolves. -/
inductive ReadOutcome where
  | closedErr
  | deactivated
  | header (obj : Obj)
  | stoppedEOF
  | blocked
deriving DecidableEq, Repr

/-- The `repeat` loop of `Stream.Read`: dequeue the next Obj; a tick-marker
loops on when SQ still holds work and otherwise deactivates; a real Obj goes
to header serialization (`insObjHeader`, `ins := inHdr`); a closed SQ yields
the "closed prior to stopping" error; a fired `stopCh` yields `io.EOF`. -/
def readRepeat : List Obj → ChanEnd → ReadOutcome
  | [], ChanEnd.closed => ReadOutcome.closedErr
  | [], ChanEnd.stopped => ReadOutcome.stoppedEOF
  | [], ChanEnd.blocked => ReadOutcome.blocked
  | obj :: rest, e =>
    if obj.IsIdleTick then
      if rest.length > 0 then readRepeat rest e
      else ReadOutcome.deactivated
    else ReadOutcome.header obj

/-- The `(n, err)` pair `Read` returns (with the updated `sessST`) for the
outcomes that return rather than proceed to header bytes. -/
def readReturn (o : ReadOutcome) (st : SessState) :
    Option (Int × Option GoError × SessState) :=
  match o with
  | ReadOutcome.closedErr => some (0, some GoError.closedPriorToStopping, st)
  | ReadOutcome.deactivated => some (deactivate st)
  | ReadOutcome.stoppedEOF => some (0, some GoError.EOF, st)
  | _ => none

lemma readRepeat_header_not_tick :
    ∀ (wc : List Obj) (e : ChanEnd) (obj : Obj),
      readRepeat wc e = ReadOutcome.header obj → obj.IsIdleTick = false := by
  intro wc
  induction wc with
  | nil => intro e obj h; cases e <;> simp [readRepeat] at h
  | cons d rest ih =>
    intro e obj h
    unfold readRepeat at h
    by_cases hd : d.IsIdleTick
    · rw [if_pos hd] at h
      by_cases hr : rest.length > 0
      · rw [if_pos hr] at h
        exact ih e obj h
      · rw [if_neg hr] at h
        cases h
    · rw [if_neg hd] at h
      cases h
      simpa using hd

/-- C6: `idleTick` enqueues exactly one tick-marker iff SQ is empty and the
active→inactive CAS succeeds (otherwise nothing changes); when `Read` dequeues
a tick-marker it contributes no bytes — with more work queued it loops to the
next item, otherwise it deactivates and returns `0, nil` — and a tick marker
never reaches header serialization, i.e. never appears as a frame. -/
theorem C6_idleTick_no_frame (wc rest : List Obj) (st : SessState) (obj : Obj)
    (e : ChanEnd) :
    (idleTick wc st = (wc ++ [tickObj], SessState.inactive) ↔
      wc = [] ∧ st = SessState.active) ∧
    (¬(wc = [] ∧ st = SessState.active) → idleTick wc st = (wc, st)) ∧
    tickObj.IsIdleTick = true ∧
    (obj.IsIdleTick = true →
      readRepeat (obj :: rest) e =
        (if rest.isEmpty then ReadOutcome.deactivated else readRepeat rest e)) ∧
    readReturn ReadOutcome.deactivated st = some (0, none, SessState.inactive) ∧
    (∀ o, readRepeat wc e = ReadOutcome.header o → o.IsIdleTick = false) := by
  refine ⟨?_, ?_, by decide, ?_, rfl, fun o => readRepeat_header_not_tick wc e o⟩
  · constructor
    · intro h
      by_cases hc : wc.isEmpty && (st == SessState.active)
      · constructor
        · simpa using (Bool.and_elim_left hc)
        · have := Bool.and_elim_right hc
          simpa using this
      · rw [idleTick, if_neg hc] at h
        have hlen := congrArg (fun p => (Prod.fst p).length) h
        simp at hlen
    · rintro ⟨h1, h2⟩
      subst h1; subst h2
      rfl
  · intro hna
    rw [idleTick, if_neg]
    intro hc
    exact hna ⟨by simpa using (Bool.and_elim_left hc),
      by simpa using (Bool.and_elim_right hc)⟩
  · intro ht
    rcases rest with _ | ⟨d, ds⟩
    · simp [readRepeat, ht]
    · simp [readRepeat, ht]

/-- Witness for C6: a tick on an otherwise empty SQ deactivates and returns
`0, nil`; with another object queued the tick is skipped. -/
theorem C6_idleTick_no_frame_witness :
    idleTick [] SessState.active = ([tickObj], SessState.inactive) ∧
    readRepeat [tickObj] ChanEnd.blocked = ReadOutcome.deactivated ∧
    readRepeat [tickObj, sampleObj] ChanEnd.blocked = ReadOutcome.header sampleObj := by
  have h := C6_idleTick_no_frame [] [] SessState.active tickObj ChanEnd.blocked
  refine ⟨h.1.mpr ⟨rfl, rfl⟩, ?_, ?_⟩
  · have := h.2.2.2.1 (by decide)
    simpa using this
  · have h2 := C6_idleTick_no_frame [] [sampleObj] SessState.active tickObj
      ChanEnd.blocked
    have := h2.2.2.2.1 (by decide)
    rw [this]
    simp [readRepeat]
    decide

/-- The environment a single `lz4Stream.Read` call runs against: the SGL fill
level at entry, and — per iteration of the retry loop — what the underlying
`Stream.Read` reports (bytes, error, the `sendoff.ins` it leaves behind) and
what draining the SGL yields after the LZ4 write (and after a flush). The LZ4
writer and SGL are external collaborators (pierrec/lz4, memsys), so their
byte production is an oracle here. -/
structure Lz4Env where
  sglLen0 : Int
  uRead : Nat → Int × Option GoError × Int
  drainAfterWrite : Nat → Int
  drainAfterFlush : Nat → Int
  drainInitial : Int

/-- What one `lz4Stream.Read` call returns and does: bytes handed to the HTTP
client, the error it reports, how many times the `re` loop body ran, how many
`runtime.Gosched()` yields happened, and how many `zw.Flush()` calls the final
loop iteration made. -/
structure Lz4Out where
  n : Int
  err : Option GoError
  iters : Nat
  goscheds : Nat
  flushes : Nat
deriving DecidableEq, Repr

/-- The `re` retry loop of `lz4Stream.Read`: read the underlying stream, feed
the LZ4 writer, flush immediately when sending the last marker (or at
end-of-object or on error, which also zeroes the retry budget), then drain the
SGL; zero drained bytes with budget left means `retry--; runtime.Gosched();
goto re`, and with no budget left a final flush and one more drain. -/
def lz4ReadAux (last : Bool) (env : Lz4Env) : Nat → Nat → Lz4Out
  | i, 0 =>
    let u := env.uRead i
    let ff := last || (u.2.2 == inEOB) || u.2.1.isSome
    let ffn : Nat := if ff then 1 else 0
    let d := env.drainAfterWrite i
    if d ≠ 0 then { n := d, err := u.2.1, iters := 1, goscheds := 0, flushes := ffn }
    else
      { n := env.drainAfterFlush i, err := u.2.1, iters := 1, goscheds := 0,
        flushes := ffn + 1 }
  | i, retry + 1 =>
    let u := env.uRead i
    let ff := last || (u.2.2 == inEOB) || u.2.1.isSome
    let ffn : Nat := if ff then 1 else 0
    let d := env.drainAfterWrite i
    if d ≠ 0 then { n := d, err := u.2.1, iters := 1, goscheds := 0, flushes := ffn }
    else if ff then
      { n := env.drainAfterFlush i, err := u.2.1, iters := 1, goscheds := 0,
        flushes := ffn + 1 }
    else
      let rest := lz4ReadAux last env (i + 1) retry
      { rest with iters := rest.iters + 1, goscheds := rest.goscheds + 1 }

/-- `lz4Stream.Read`: drain leftover compressed bytes first (after a flush);
otherwise run the retry loop with a budget of 64; add the returned byte count
to `stats.CompressedSize` exactly once; report `io.EOF` after the last
marker. -/
def lz4Read (last : Bool) (env : Lz4Env) (stats : Stats) : Lz4Out × Stats :=
  let out :=
    if env.sglLen0 > 0 then
      { n := env.drainInitial, err := none, iters := 0, goscheds := 0, flushes := 1 }
    else lz4ReadAux last env 0 64
  let out : Lz4Out :=
    { out with err := if last && out.err.isNone then some GoError.EOF else out.err }
  (out, { stats with CompressedSize := stats.CompressedSize + out.n })

lemma lz4ReadAux_goscheds_le (last : Bool) (env : Lz4Env) :
    ∀ (r i : Nat), (lz4ReadAux last env i r).goscheds ≤ r := by
  intro r
  induction r with
  | zero =>
    intro i
    simp only [lz4ReadAux]
    split <;> simp
  | succ k ih =>
    intro i
    simp only [lz4ReadAux]
    split
    · simp
    · split
      · simp
      · simpa using Nat.succ_le_succ (ih (i + 1))

lemma lz4ReadAux_last_no_retry (env : Lz4Env) :
    ∀ (r i : Nat),
      (lz4ReadAux true env i r).iters = 1 ∧ (lz4ReadAux true env i r).goscheds = 0 ∧
      1 ≤ (lz4ReadAux true env i r).flushes := by
  intro r
  induction r with
  | zero =>
    intro i
    simp only [lz4ReadAux]
    split <;> simp
  | succ k _ =>
    intro i
    simp only [lz4ReadAux]
    split
    · simp
    · rw [if_pos (by simp)]
      simp

lemma lz4ReadAux_zero_needs_flush (last : Bool) (env : Lz4Env) :
    ∀ (r i : Nat), (lz4ReadAux last env i r).n = 0 →
      1 ≤ (lz4ReadAux last env i r).flushes := by
  intro r
  induction r with
  | zero =>
    intro i hn
    simp only [lz4ReadAux] at hn ⊢
    by_cases hd : env.drainAfterWrite i ≠ 0
    · rw [if_pos hd] at hn
      exact absurd hn hd
    · rw [if_neg hd]
      simp
  | succ k ih =>
    intro i hn
    simp only [lz4ReadAux] at hn ⊢
    by_cases hd : env.drainAfterWrite i ≠ 0
    · rw [if_pos hd] at hn
      exact absurd hn hd
    · rw [if_neg hd] at hn ⊢
      by_cases hf :
          (last || ((env.uRead i).2.2 == inEOB) || (env.uRead i).2.1.isSome) = true
      · rw [if_pos hf]
        simp
      · rw [if_neg hf] at hn ⊢
        simpa using ih (i + 1) (by simpa using hn)

lemma lz4ReadAux_exhausts (env : Lz4Env)
    (hdrain : ∀ j, env.drainAfterWrite j = 0)
    (herr : ∀ j, (env.uRead j).2.1 = none)
    (hins : ∀ j, (env.uRead j).2.2 ≠ inEOB) :
    ∀ (r i : Nat),
      lz4ReadAux false env i r =
        { n := env.drainAfterFlush (i + r), err := none, iters := r + 1,
          goscheds := r, flushes := 1 } := by
  intro r
  induction r with
  | zero =>
    intro i
    have hff : ((env.uRead i).2.2 == inEOB) = false := by
      simpa using hins i
    simp [lz4ReadAux, hdrain i, herr i, hff]
  | succ k ih =>
    intro i
    have hff : ((env.uRead i).2.2 == inEOB) = false := by
      simpa using hins i
    have hrec := ih (i + 1)
    have harg : i + 1 + k = i + (k + 1) := by omega
    rw [harg] at hrec
    simp [lz4ReadAux, hdrain i, herr i, hff, hrec]

lemma lz4Read_slow (last : Bool) (env : Lz4Env) (stats : Stats)
    (hslow : ¬env.sglLen0 > 0) :
    (lz4Read last env stats).1.n = (lz4ReadAux last env 0 64).n ∧
    (lz4Read last env stats).1.iters = (lz4ReadAux last env 0 64).iters ∧
    (lz4Read last env stats).1.goscheds = (lz4ReadAux last env 0 64).goscheds ∧
    (lz4Read last env stats).1.flushes = (lz4ReadAux last env 0 64).flushes := by
  simp [lz4Read, hslow]

/-- C7: every `lz4Stream.Read` call adds the compressed byte count it returns
to `stats.CompressedSize` exactly once; the retry loop yields the scheduler at
most 64 times; with the last marker in flight a final flush is forced and no
retries are attempted; a `0`-byte return can only come out of an iteration
that performed the final flush; and when the SGL never yields bytes and no
flush-forcing condition holds, the loop runs its initial pass plus all 64
retries (64 scheduler yields) and returns whatever the final flush drains. -/
theorem C7_lz4Read_accounting (last : Bool) (env : Lz4Env) (stats : Stats) :
    (lz4Read last env stats).2.CompressedSize =
      stats.CompressedSize + (lz4Read last env stats).1.n ∧
    (∀ r i, (lz4ReadAux last env i r).goscheds ≤ r) ∧
    (env.sglLen0 ≤ 0 → last = true →
      (lz4Read last env stats).1.iters = 1 ∧
      (lz4Read last env stats).1.goscheds = 0 ∧
      1 ≤ (lz4Read last env stats).1.flushes) ∧
    (env.sglLen0 ≤ 0 → (lz4Read last env stats).1.n = 0 →
      1 ≤ (lz4Read last env stats).1.flushes) ∧
    (env.sglLen0 ≤ 0 → last = false →
      (∀ j, env.drainAfterWrite j = 0) →
      (∀ j, (env.uRead j).2.1 = none) →
      (∀ j, (env.uRead j).2.2 ≠ inEOB) →
      (lz4Read last env stats).1.n = env.drainAfterFlush 64 ∧
      (lz4Read last env stats).1.iters = 65 ∧
      (lz4Read last env stats).1.goscheds = 64) := by
  refine ⟨?_, lz4ReadAux_goscheds_le last env, ?_, ?_, ?_⟩
  · simp only [lz4Read]
  · intro hsgl hlast
    subst hlast
    have hslow : ¬env.sglLen0 > 0 := by omega
    obtain ⟨-, hi, hg, hf⟩ := lz4Read_slow true env stats hslow
    obtain ⟨h1, h2, h3⟩ := lz4ReadAux_last_no_retry env 64 0
    refine ⟨?_, ?_, ?_⟩
    · rw [hi]; exact h1
    · rw [hg]; exact h2
    · rw [hf]; exact h3
  · intro hsgl hn
    have hslow : ¬env.sglLen0 > 0 := by omega
    obtain ⟨hn', -, -, hf⟩ := lz4Read_slow last env stats hslow
    rw [hf]
    exact lz4ReadAux_zero_needs_flush last env 64 0 (by rw [← hn']; exact hn)
  · intro hsgl hlast hdrain herr hins
    subst hlast
    have hslow : ¬env.sglLen0 > 0 := by omega
    obtain ⟨hn', hi, hg, -⟩ := lz4Read_slow false env stats hslow
    have h := lz4ReadAux_exhausts env hdrain herr hins 64 0
    refine ⟨?_, ?_, ?_⟩
    · rw [hn', h]
    · rw [hi, h]
    · rw [hg, h]

/-- An LZ4 read environment where the SGL never yields bytes and the
underlying stream stays mid-object without errors. -/
def lz4SampleEnv : Lz4Env :=
  { sglLen0 := 0, uRead := fun _ => (0, none, inData),
    drainAfterWrite := fun _ => 0, drainAfterFlush := fun _ => 0,
    drainInitial := 0 }

/-- Witness for C7: an environment whose SGL never produces bytes while the
stream stays mid-object exhausts all 64 retries, and a last-marker call
flushes once without retrying. -/
theorem C7_lz4Read_accounting_witness :
    (lz4Read false lz4SampleEnv {}).1.iters = 65 ∧
    (lz4Read false lz4SampleEnv {}).1.goscheds = 64 ∧
    (lz4Read true lz4SampleEnv {}).1.goscheds = 0 := by
  obtain ⟨-, -, -, -, h5⟩ := C7_lz4Read_accounting false lz4SampleEnv {}
  obtain ⟨-, -, h3, -, -⟩ := C7_lz4Read_accounting true lz4SampleEnv {}
  obtain ⟨-, hit, hgo⟩ :=
    h5 (by decide) rfl (fun j => rfl) (fun j => rfl)
      (fun j => by show (3 : Int) ≠ (0 : Int); decide)
  obtain ⟨-, hgo2, -⟩ := h3 (by decide) rfl
  exact ⟨hit, hgo, hgo2⟩

/-- C8: a closed SQ while `Read` waits between objects produces `0` bytes and
the non-EOF "closed prior to stopping" error, while an orderly `Stop` (closed
`stopCh`) produces `io.EOF` — the two terminations are distinguishable by the
returned error. -/
theorem C8_closed_vs_stopped (st : SessState) :
    readRepeat [] ChanEnd.closed = ReadOutcome.closedErr ∧
    readReturn ReadOutcome.closedErr st =
      some (0, some GoError.closedPriorToStopping, st) ∧
    readRepeat [] ChanEnd.stopped = ReadOutcome.stoppedEOF ∧
    readReturn ReadOutcome.stoppedEOF st = some (0, some GoError.EOF, st) ∧
    (GoError.closedPriorToStopping ≠ GoError.EOF) := by
  exact ⟨rfl, rfl, rfl, rfl, by decide⟩

/-- Witness for C1 at a concrete input: one close, one callback, and exactly
one callback over the refcount thread. -/
theorem C1_completion_exactly_once_witness :
    ((doCmpl (some 7) sampleObj none).filter Event.isClose).length = 1 ∧
    ((doCmpl (some 7) sampleObj none).filter Event.isCallback).length = 1 ∧
    ((doCmplThread (some 7) sampleObj [some GoError.EOF]).filter
      Event.isCallback).length = 1 := by
  obtain ⟨h1, h2, _, h4, _, _, _⟩ :=
    C1_completion_exactly_once (some 7) sampleObj none
  refine ⟨by simpa [sampleObj] using h1, by simpa [sampleObj] using h2 (Or.inr rfl), ?_⟩
  have := h4 [some GoError.EOF] (by simp [sampleObj]) (by simp)
  simpa [sampleObj] using this

/-- C5: `cmplLoop` handles completions in order, stopping at the first
last-marker (or at channel close) without running `doCmpl` on the marker; no
completion placed after a last-marker is processed, so the processed items are
exactly the longest marker-free front of SCQ. -/
theorem C5_cmplLoop_stops_at_lastMarker (scb : Option Nat)
    (cs pre post : List cmpl) (lm : cmpl) :
    cmplLoopProcessed cs = cs.takeWhile (fun c => !c.obj.IsLast) ∧
    (∀ c ∈ cmplLoopProcessed cs, c.obj.IsLast = false) ∧
    cmplLoopRun scb cs =
      (cmplLoopProcessed cs).flatMap (fun c => doCmpl scb c.obj c.err) ∧
    (cs = pre ++ lm :: post → (∀ c ∈ pre, c.obj.IsLast = false) →
      lm.obj.IsLast = true → cmplLoopProcessed cs = pre) := by
  refine ⟨cmplLoopProcessed_eq_takeWhile cs, cmplLoopProcessed_not_last cs,
    cmplLoopRun_eq_bind scb cs, ?_⟩
  intro hcs hpre hlm
  rw [hcs]
  exact cmplLoopProcessed_append_last pre lm post hpre hlm

/-- Witness for C5: with a real completion before the marker and one after,
the loop processes exactly the one before. -/
theorem C5_cmplLoop_stops_at_lastMarker_witness :
    cmplLoopProcessed
        [⟨sampleObj, none⟩, ⟨lastMarkerObj, some GoError.EOF⟩, ⟨sampleObj, none⟩] =
      [⟨sampleObj, none⟩] := by
  have h :=
    (C5_cmplLoop_stops_at_lastMarker none
      [⟨sampleObj, none⟩, ⟨lastMarkerObj, some GoError.EOF⟩, ⟨sampleObj, none⟩]
      [⟨sampleObj, none⟩] [⟨sampleObj, none⟩] ⟨lastMarkerObj, some GoError.EOF⟩).2.2.2
  exact h rfl (by intro c hc; simp at hc; subst hc; decide) (by decide)

/-- C9: when a completion fires, a per-object `Callback` shadows the
stream-level callback: the stream-level callback is invoked only for objects
whose own `Callback` is nil, and never both. -/
theorem C9_per_object_callback_shadows_stream (scb : Option Nat) (obj : Obj)
    (err : Option GoError) :
    (∀ e ∈ doCmpl scb obj err, e.isStreamCallback = true → obj.Callback = none) ∧
    (obj.Callback.isSome = true →
      (doCmpl scb obj err).filter Event.isStreamCallback = []) ∧
    ((obj.prc = none ∨ obj.prc = some 1) → ∀ cb, obj.Callback = some cb →
      (doCmpl scb obj err).filter Event.isCallback =
        [Event.objCallback cb obj.Hdr obj.Reader obj.CmplPtr err]) := by
  refine ⟨?_, ?_, ?_⟩
  · intro e he hsc
    simp only [doCmpl, List.mem_append] at he
    rcases he with (hcb | hcl) | hf
    · split at hcb
      · rcases hc : obj.Callback with _ | cb
        · rfl
        · rw [hc] at hcb
          simp at hcb
          subst hcb
          simp [Event.isStreamCallback] at hsc
      · simp at hcb
    · rcases hrd : obj.Reader with _ | r <;> rw [hrd] at hcl <;> simp at hcl
      subst hcl
      simp [Event.isStreamCallback] at hsc
    · simp at hf
      subst hf
      simp [Event.isStreamCallback] at hsc
  · intro hsome
    rcases hc : obj.Callback with _ | cb
    · rw [hc] at hsome
      simp at hsome
    · simp only [doCmpl, hc]
      rcases obj.Reader with _ | r <;> split <;>
        simp [Event.isStreamCallback, List.filter_append]
  · intro hprc cb hcb
    rw [doCmpl_filter_callback scb obj err hprc, hcb]

/-- Witness for C9: with both callbacks set, only the per-object one fires. -/
theorem C9_per_object_callback_shadows_stream_witness :
    (doCmpl (some 7) sampleObj none).filter Event.isStreamCallback = [] ∧
    (doCmpl (some 7) sampleObj none).filter Event.isCallback =
      [Event.objCallback 5 sampleObj.Hdr (some 3) 9 none] := by
  obtain ⟨_, h2, h3⟩ :=
    C9_per_object_callback_shadows_stream (some 7) sampleObj none
  exact ⟨h2 rfl, h3 (Or.inr rfl) 5 rfl⟩

/-- C10: no SCQ drain path ever hands a last-marker completion to `doCmpl`:
`cmplLoop` and the completion half of `abortPending` both skip `IsLast`
completions, so the synthetic marker posted by `terminate` never triggers a
callback or a reader close. -/
theorem C10_lastMarker_never_completed (cs : List cmpl) (c : cmpl) :
    (c ∈ cmplLoopProcessed cs → c.obj.IsLast = false ∧ c.obj ≠ lastMarkerObj) ∧
    (c ∈ abortPendingCmplProcessed cs →
      c.obj.IsLast = false ∧ c.obj ≠ lastMarkerObj) ∧
    lastMarkerObj.IsLast = true := by
  have hmark : lastMarkerObj.IsLast = true := by decide
  refine ⟨?_, ?_, hmark⟩
  · intro hc
    have hf := cmplLoopProcessed_not_last cs c hc
    refine ⟨hf, ?_⟩
    intro heq
    rw [heq, hmark] at hf
    cases hf
  · intro hc
    have hf := abortPendingCmplProcessed_not_last cs c hc
    refine ⟨hf, ?_⟩
    intro heq
    rw [heq, hmark] at hf
    cases hf

/-- Witness for C10: a real completion sitting in front of the terminate
marker is processed and is not the marker. -/
theorem C10_lastMarker_never_completed_witness :
    (⟨sampleObj, none⟩ : cmpl).obj.IsLast = false ∧
    (⟨sampleObj, none⟩ : cmpl).obj ≠ lastMarkerObj := by
  have h :=
    (C10_lastMarker_never_completed
      [⟨sampleObj, none⟩, ⟨lastMarkerObj, none⟩] ⟨sampleObj, none⟩).1
  exact h (by decide)

end Transport
